import Mathlib

/-!
Verification development for the DICOM Part 10 reader in `src/dicom-file.c`
(libdicom).  The C source is shallowly embedded: the input stream is a list
of bytes together with an explicit position, `fread`/`fseek`/`ftell` become
explicit position passing, machine integers become `Nat`/`Int` with
wrap-around written as `% 2 ^ w` where the C code converts, and every
`return NULL` site becomes `Option.none` or an `Except.error` carrying the
error kind named by the log message / the specification's error list.
The host is assumed little-endian, as the C code requires: `fread` into a
`uint16_t`/`uint32_t`/... decodes the bytes little-endian.
-/

namespace Dicom

/-- Bytes of the input file; every entry is `< 256` in intended use. -/
abbrev Bytes := List Nat

/-- Special tags, from `enum SpecialTag` in `dicom-file.c`. -/
def TAG_ITEM : Nat := 0xFFFEE000

/-- Item delimitation tag. -/
def TAG_ITEM_DELIM : Nat := 0xFFFEE00D

/-- Sequence delimitation tag. -/
def TAG_SQ_DELIM : Nat := 0xFFFEE0DD

/-- Data Set trailing padding tag. -/
def TAG_TRAILING_PADDING : Nat := 0xFFFCFFFC

/-- Extended Offset Table tag. -/
def TAG_EXTENDED_OFFSET_TABLE : Nat := 0x7FE00001

/-- Pixel Data tag. -/
def TAG_PIXEL_DATA : Nat := 0x7FE00010

/-- Float Pixel Data tag. -/
def TAG_FLOAT_PIXEL_DATA : Nat := 0x7FE00008

/-- Double Float Pixel Data tag. -/
def TAG_DOUBLE_PIXEL_DATA : Nat := 0x7FE00009

/-- Exact read of `len` bytes at `pos`: returns the bytes and the new
position.  `fread` that cannot be satisfied in full leaves the C code with
partially-written buffers that it then reads (undefined behaviour), so the
model fails there. -/
def readBytesAt (s : Bytes) (pos len : Nat) : Option (List Nat × Nat) :=
  if pos + len ≤ s.length then some ((s.drop pos).take len, pos + len) else none

/-- Little-endian value of a byte list (first byte least significant). -/
def leVal (bs : List Nat) : Nat :=
  bs.foldr (fun b acc => b % 256 + 256 * acc) 0

/-- Two's-complement reading of a `w`-byte little-endian value. -/
def toSigned (w : Nat) (n : Nat) : Int :=
  if n < 2 ^ (8 * w - 1) then (n : Int) else (n : Int) - 2 ^ (8 * w)

/-- Group number of a tag: `eheader_get_group_number`, `(uint16_t)(tag >> 16)`. -/
def groupOf (tag : Nat) : Nat := (tag / 65536) % 65536

/-- External collaborators that `dicom-file.c` calls but that live outside
`src/`: the tag dictionary (`dcm_dict_lookup_vr`) and the predicate helpers
(`dcm_is_valid_tag`, `dcm_is_valid_vr`, `dcm_is_encapsulated_transfer_syntax`). -/
structure Ext where
  dict : Nat → String
  is_valid_tag : Nat → Bool
  is_valid_vr : String → Bool
  is_encapsulated : String → Bool

/-- Modelled from the spec: the VR codes of sections 3 and 4.2 (the union of
the short-length class and the long-length class); `dcm_is_valid_vr` is
declared in section 6.5 but defined outside `src/`. -/
def specValidVRs : List String :=
  ["AE", "AS", "AT", "CS", "DA", "DS", "DT", "FL", "FD", "IS", "LO", "LT",
   "PN", "SH", "SL", "SS", "ST", "TM", "UI", "UL", "US",
   "OB", "OD", "OF", "OL", "OV", "OW", "UC", "UN", "UR", "UT", "SQ", "SV", "UV"]

/-- Modelled from the spec: a concrete instance of the external collaborators,
used by concrete witnesses.  `dcm_dict_lookup_vr` returns "UN" for unknown
tags (section 6.4); `dcm_is_valid_tag` and `dcm_is_encapsulated_transfer_syntax`
are declared without semantics in section 6.5, so the instance takes every tag
to be valid and takes one sample UID (JPEG Baseline) as encapsulated. -/
def extDefault : Ext where
  dict := fun _ => "UN"
  is_valid_tag := fun _ => true
  is_valid_vr := fun vr => specValidVRs.contains vr
  is_encapsulated := fun uid => uid = "1.2.840.10008.1.2.4.50"

/-- Item header, `struct ItemHeader`. -/
structure IHeader where
  tag : Nat
  length : Nat
deriving DecidableEq

/-- Element header, `struct ElementHeader`. -/
structure EHeader where
  tag : Nat
  vr : String
  length : Nat
deriving DecidableEq

/-- Model of `iheader_create`: fails unless the tag is one of the three
item framing tags. -/
def iheader_create (tag length : Nat) : Option IHeader :=
  if tag = TAG_ITEM ∨ tag = TAG_ITEM_DELIM ∨ tag = TAG_SQ_DELIM then
    some ⟨tag, length⟩
  else
    none

/-- Model of `eheader_create`: fails on an invalid tag or an invalid VR. -/
def eheader_create (ext : Ext) (tag : Nat) (vr : String) (length : Nat) :
    Option EHeader :=
  if ext.is_valid_tag tag then
    if ext.is_valid_vr vr then some ⟨tag, vr, length⟩ else none
  else
    none

/-- Model of `read_tag`: two little-endian u16 reads (group, element),
packed as `(group << 16) + element`; also advances the byte counter `n`. -/
def read_tag (s : Bytes) (pos n : Nat) : Option (Nat × Nat × Nat) :=
  match readBytesAt s pos 2 with
  | none => none
  | some (g, pos1) =>
    match readBytesAt s pos1 2 with
    | none => none
    | some (e, pos2) => some (leVal g * 65536 + leVal e, pos2, n + 4)

/-- Model of `read_item_header`: tag plus little-endian u32 length. -/
def read_item_header (s : Bytes) (pos n : Nat) : Option (IHeader × Nat × Nat) :=
  match read_tag s pos n with
  | none => none
  | some (tag, pos1, n1) =>
    match readBytesAt s pos1 4 with
    | none => none
    | some (len, pos2) =>
      match iheader_create tag (leVal len) with
      | none => none
      | some ih => some (ih, pos2, n1 + 4)

/-- The VRs that carry a two-byte length field in explicit mode: the literal
`strcmp` chain of `read_element_header`. -/
def isShortLengthVR (vr : String) : Bool :=
  vr = "AE" ∨ vr = "AS" ∨ vr = "AT" ∨ vr = "CS" ∨ vr = "DA" ∨ vr = "DS" ∨
  vr = "DT" ∨ vr = "FL" ∨ vr = "FD" ∨ vr = "IS" ∨ vr = "LO" ∨ vr = "LT" ∨
  vr = "PN" ∨ vr = "SH" ∨ vr = "SL" ∨ vr = "SS" ∨ vr = "ST" ∨ vr = "TM" ∨
  vr = "UI" ∨ vr = "UL" ∨ vr = "US"

/-- Model of `read_element_header`.  In implicit mode the VR comes from the
dictionary (first two characters, as `strncpy(vr, tmp, 2)`); in explicit mode
it is read from the stream, and the long-length class additionally checks the
two reserved bytes against zero. -/
def read_element_header (ext : Ext) (s : Bytes) (pos n : Nat) (implicit : Bool) :
    Option (EHeader × Nat × Nat) :=
  match read_tag s pos n with
  | none => none
  | some (tag, pos1, n1) =>
    if implicit then
      let vr := ((ext.dict tag).take 2)
      match readBytesAt s pos1 4 with
      | none => none
      | some (len, pos2) =>
        match eheader_create ext tag vr (leVal len) with
        | none => none
        | some h => some (h, pos2, n1 + 4)
    else
      match readBytesAt s pos1 2 with
      | none => none
      | some (vrb, pos2) =>
        let vr := String.mk (vrb.map Char.ofNat)
        if isShortLengthVR vr then
          match readBytesAt s pos2 2 with
          | none => none
          | some (len, pos3) =>
            match eheader_create ext tag vr (leVal len) with
            | none => none
            | some h => some (h, pos3, n1 + 4)
        else
          match readBytesAt s pos2 2 with
          | none => none
          | some (res, pos3) =>
            if leVal res ≠ 0 then none
            else
              match readBytesAt s pos3 4 with
              | none => none
              | some (len, pos4) =>
                match eheader_create ext tag vr (leVal len) with
                | none => none
                | some h => some (h, pos4, n1 + 8)

end Dicom

namespace Dicom

/-- The C `isspace` on a byte: space or one of the control characters 9–13. -/
def isspace_byte (b : Nat) : Bool := b = 32 ∨ (9 ≤ b ∧ b ≤ 13)

/-- C-string view of a byte buffer: everything before the first NUL byte. -/
def cstring (bs : List Nat) : List Nat := bs.takeWhile (fun b => b ≠ 0)

/-- Split a byte list at every occurrence of `sep`, keeping empty pieces. -/
def splitByte (sep : Nat) : List Nat → List (List Nat)
  | [] => [[]]
  | b :: rest =>
    if b = sep then [] :: splitByte sep rest
    else
      match splitByte sep rest with
      | [] => [[b]]
      | t :: ts => (b :: t) :: ts

/-- Tokens produced by `strtok(string, "\\")` iterated to exhaustion: the
maximal non-empty runs between backslash (byte 92) delimiters. -/
def strtok_backslash (bs : List Nat) : List (List Nat) :=
  (splitByte 92 bs).filter (fun t => t ≠ [])

/-- String built from a byte list. -/
def bytesToString (bs : List Nat) : String := String.mk (bs.map Char.ofNat)

/-- Model of `parse_character_string`, applied to the effective C string (no
NUL bytes): an empty string yields the single empty token, otherwise the
`strtok` tokens.  The value multiplicity is the length of the result. -/
def parse_character_string (bs : List Nat) : List String :=
  if bs = [] then [""] else (strtok_backslash bs).map bytesToString

/-- Model of the buffer fix-up in `read_element` (lines 383–390): when the
buffer is non-empty, the VR is not "UI" and the final byte satisfies
`isspace`, that byte is overwritten with NUL; a NUL terminator is appended
at index `length` in either case. -/
def char_value_bytes (vr : String) (bs : List Nat) : List Nat :=
  (if bs ≠ [] ∧ vr ≠ "UI" ∧ isspace_byte (bs.getLast?.getD 0) then
    bs.dropLast ++ [0]
  else bs) ++ [0]

/-- The string parts a character-string element of VR `vr` decodes from a
raw value buffer `bs`: NUL-terminate (and possibly whitespace-strip) the
buffer, take its C string, and split it. -/
def char_value_parts (vr : String) (bs : List Nat) : List String :=
  parse_character_string (cstring (char_value_bytes vr bs))

/-- The character-string VRs: the literal guard chain of `read_element`
(lines 357–373). -/
def isCharStringVR (vr : String) : Bool :=
  vr = "AE" ∨ vr = "AS" ∨ vr = "AT" ∨ vr = "CS" ∨ vr = "DA" ∨ vr = "DS" ∨
  vr = "DT" ∨ vr = "IS" ∨ vr = "LO" ∨ vr = "LT" ∨ vr = "PN" ∨ vr = "SH" ∨
  vr = "ST" ∨ vr = "TM" ∨ vr = "UI" ∨ vr = "UR" ∨ vr = "UT"

/-- The VRs that are contractually single-valued (`ST`, `LT`, `UR`, `UT`);
`read_element` fails on them when the value multiplicity exceeds 1. -/
def isSingleValuedVR (vr : String) : Bool :=
  vr = "ST" ∨ vr = "LT" ∨ vr = "UR" ∨ vr = "UT"

/-- Decoded Data Element.  The element constructors (`dcm_element_create_*`)
are external collaborators; the model keeps the tag, the VR and the decoded
value.  Numeric families are collapsed into one constructor over `Int`:
unsigned values are embedded as non-negative integers, and the `FD`/`FL`
values are kept as their raw little-endian bit patterns (the model does not
interpret IEEE floating point). -/
inductive Elem where
  | strs (tag : Nat) (vr : String) (parts : List String)
  | str1 (tag : Nat) (vr : String) (s : String)
  | nums (tag : Nat) (vr : String) (vals : List Int)
  | blob (tag : Nat) (vr : String) (bs : List Nat)
  | sq (tag : Nat) (items : List (List Elem))

/-- Tag of a decoded element. -/
def Elem.tagOf : Elem → Nat
  | .strs t _ _ => t
  | .str1 t _ _ => t
  | .nums t _ _ => t
  | .blob t _ _ => t
  | .sq t _ => t

/-- A Data Set is an insertion-ordered list of elements. -/
abbrev Dataset := List Elem

/-- Modelled from the spec: `dcm_dataset_get` (external collaborator) looks
an element up by tag. -/
def dataset_get (ds : Dataset) (tag : Nat) : Option Elem :=
  ds.find? (fun e => e.tagOf = tag)

/-- Modelled from the spec: `dcm_dataset_insert` (external collaborator)
appends an element and fails on a duplicate tag at the same level. -/
def dataset_insert (ds : Dataset) (e : Elem) : Option Dataset :=
  if ds.any (fun x => x.tagOf = e.tagOf) then none else some (ds ++ [e])

/-- Read `count` little-endian values of `sz` bytes each, converting each
with `conv`; models the per-value `fread` loops of the numeric branches. -/
def read_values (s : Bytes) (conv : Nat → Int) (sz : Nat) :
    Nat → Nat → Nat → Option (List Int × Nat × Nat)
  | 0, pos, n => some ([], pos, n)
  | count + 1, pos, n =>
    match readBytesAt s pos sz with
    | none => none
    | some (bs, pos1) =>
      match read_values s conv sz count pos1 (n + sz) with
      | none => none
      | some (vs, pos2, n2) => some (conv (leVal bs) :: vs, pos2, n2)

end Dicom

namespace Dicom

mutual

/-- Model of `read_element` (lines 325–780).  Given the already-decoded
header, decodes the value from the stream at `pos` with running byte counter
`n`, returning the element, the new position and the new counter.  The
branches follow the C dispatch order: character strings, `SQ`, the
fixed-width numeric VRs (`FD FL SS SL SV UL US UV`), then the byte-blob
VRs.  `fuel` bounds the recursion through nested sequences. -/
def read_element (ext : Ext) (implicit : Bool) :
    Nat → Bytes → EHeader → Nat → Nat → Option (Elem × Nat × Nat)
  | 0, _, _, _, _ => none
  | _fuel + 1, s, hdr, pos, n =>
    if isCharStringVR hdr.vr then
      match readBytesAt s pos hdr.length with
      | none => none
      | some (buf, pos1) =>
        let parts := char_value_parts hdr.vr buf
        if isSingleValuedVR hdr.vr then
          -- ST / LT / UR / UT: reject value multiplicity above one, then
          -- take `strings[0]` (reading it from an empty array is undefined
          -- behaviour in the C, modelled as failure)
          if parts.length > 1 then none
          else
            match parts with
            | [p] => some (.str1 hdr.tag hdr.vr p, pos1, n + hdr.length)
            | _ => none
        else
          some (.strs hdr.tag hdr.vr parts, pos1, n + hdr.length)
    else if hdr.vr = "SQ" then
      if hdr.length = 0 then
        some (.sq hdr.tag [], pos, n)
      else
        match read_sq_items ext implicit _fuel s hdr.length pos 0 [] with
        | none => none
        | some (items, pos1, n_seq) => some (.sq hdr.tag items, pos1, n + n_seq)
    else if hdr.vr = "FD" then
      match read_values s (fun v => (v : Int)) 8 (hdr.length / 8) pos n with
      | none => none
      | some (vs, pos1, n1) => some (.nums hdr.tag hdr.vr vs, pos1, n1)
    else if hdr.vr = "FL" then
      match read_values s (fun v => (v : Int)) 4 (hdr.length / 4) pos n with
      | none => none
      | some (vs, pos1, n1) => some (.nums hdr.tag hdr.vr vs, pos1, n1)
    else if hdr.vr = "SS" then
      match read_values s (toSigned 2) 2 (hdr.length / 2) pos n with
      | none => none
      | some (vs, pos1, n1) => some (.nums hdr.tag hdr.vr vs, pos1, n1)
    else if hdr.vr = "SL" then
      match read_values s (toSigned 4) 4 (hdr.length / 4) pos n with
      | none => none
      | some (vs, pos1, n1) => some (.nums hdr.tag hdr.vr vs, pos1, n1)
    else if hdr.vr = "SV" then
      match read_values s (toSigned 8) 8 (hdr.length / 8) pos n with
      | none => none
      | some (vs, pos1, n1) => some (.nums hdr.tag hdr.vr vs, pos1, n1)
    else if hdr.vr = "UL" then
      match read_values s (fun v => (v : Int)) 4 (hdr.length / 4) pos n with
      | none => none
      | some (vs, pos1, n1) => some (.nums hdr.tag hdr.vr vs, pos1, n1)
    else if hdr.vr = "US" then
      match read_values s (fun v => (v : Int)) 2 (hdr.length / 2) pos n with
      | none => none
      | some (vs, pos1, n1) => some (.nums hdr.tag hdr.vr vs, pos1, n1)
    else if hdr.vr = "UV" then
      match read_values s (fun v => (v : Int)) 8 (hdr.length / 8) pos n with
      | none => none
      | some (vs, pos1, n1) => some (.nums hdr.tag hdr.vr vs, pos1, n1)
    else
      match readBytesAt s pos hdr.length with
      | none => none
      | some (buf, pos1) =>
        if hdr.vr = "OB" ∨ hdr.vr = "OD" ∨ hdr.vr = "OF" ∨ hdr.vr = "OL" ∨
            hdr.vr = "OV" ∨ hdr.vr = "OW" ∨ hdr.vr = "UC" ∨ hdr.vr = "UN" then
          some (.blob hdr.tag hdr.vr buf, pos1, n + hdr.length)
        else
          none
termination_by structural fuel _ _ _ _ => fuel

/-- Model of the outer `while (n_seq < length)` loop of the `SQ` branch of
`read_element` (lines 518–628): read an item header (counted into `n_seq`),
stop at the sequence delimitation tag, fail on a non-item tag, read the
item's dataset, and accumulate. -/
def read_sq_items (ext : Ext) (implicit : Bool) :
    Nat → Bytes → Nat → Nat → Nat → List (List Elem) →
    Option (List (List Elem) × Nat × Nat)
  | 0, _, _, _, _, _ => none
  | fuel + 1, s, length, pos, n_seq, acc =>
    if n_seq < length then
      match read_item_header s pos n_seq with
      | none => none
      | some (ih, pos1, n_seq1) =>
        if ih.tag = TAG_SQ_DELIM then some (acc.reverse, pos1, n_seq1)
        else if ih.tag ≠ TAG_ITEM then none
        else
          match read_item_elems ext implicit fuel s ih.length pos1 0 [] with
          | none => none
          | some (ds, pos2, n_item) =>
            read_sq_items ext implicit fuel s length pos2 (n_seq1 + n_item)
              (ds :: acc)
    else some (acc.reverse, pos, n_seq)
termination_by structural fuel _ _ _ _ _ => fuel

/-- Model of the inner `while (n_item < item_length)` loop of the `SQ`
branch of `read_element` (lines 573–623): probe four bytes for the item
delimitation tag (skipping its length field when found, rewinding
otherwise), then read one element and insert it into the item's dataset
(`dcm_dataset_insert` fails on a duplicate tag). -/
def read_item_elems (ext : Ext) (implicit : Bool) :
    Nat → Bytes → Nat → Nat → Nat → List Elem → Option (List Elem × Nat × Nat)
  | 0, _, _, _, _, _ => none
  | fuel + 1, s, item_length, pos, n_item, acc =>
    if n_item < item_length then
      match read_tag s pos n_item with
      | none => none
      | some (t, pos1, n1) =>
        if t = TAG_ITEM_DELIM then
          -- skip the four-byte zero length field of the delimiter
          some (acc.reverse, pos1 + 4, n1 + 4)
        else
          -- the C rewinds the probe: `fseek(fp, -4, SEEK_CUR); n_item -= 4`
          match read_element_header ext s pos n_item implicit with
          | none => none
          | some (hdr, pos2, n2) =>
            match read_element ext implicit fuel s hdr pos2 n2 with
            | none => none
            | some (e, pos3, n3) =>
              if acc.any (fun x => x.tagOf = e.tagOf) then none
              else read_item_elems ext implicit fuel s item_length pos3 n3
                (e :: acc)
    else some (acc.reverse, pos, n_item)
termination_by structural fuel _ _ _ _ _ => fuel

end

end Dicom

namespace Dicom

/-- Error kinds.  The C functions return `NULL` uniformly; the kind recorded
here is the one named by the log message at the corresponding return site
(using the specification's closed error list, section 7).  `Undefined` marks
return paths on which the C code has undefined behaviour. -/
inductive DErr where
  | UnexpectedEof
  | MissingMagic
  | MissingTransferSyntax
  | ReservedNonZero
  | UnknownVR
  | InvalidItemTag
  | ExpectedItem
  | LengthOverflow
  | MalformedLength
  | UnexpectedVM
  | DuplicateTag
  | UnexpectedFileMetaGroup
  | BadFrameCount
  | BadFrameIndex
  | MalformedBOT
  | FrameCountMismatch
  | NotEncapsulated
  | MissingAttribute
  | MissingPixelDataOffset
  | NoBOT
  | NotPixelDataElement
  | HeaderFailed
  | ElementFailed
  | Undefined
  | FuelExhausted
deriving DecidableEq

/-- Model of `struct _DcmFile`: the stream (bytes plus current position) and
the cached fields.  `offset` is the end of the File Meta region
(`header_end_offset`), zero while File Meta has not been read;
`pixel_data_offset` is zero while no pixel data tag has been encountered. -/
structure DcmFile where
  bytes : Bytes
  fpos : Nat
  offset : Nat
  transfer_syntax_uid : Option String
  pixel_data_offset : Nat

/-- Model of `dcm_file_create` for mode 'r': all cached fields zeroed
(lines 808–810). -/
def dcm_file_create (bytes : Bytes) : DcmFile :=
  { bytes := bytes, fpos := 0, offset := 0, transfer_syntax_uid := none,
    pixel_data_offset := 0 }

/-- Model of `dcm_element_get_value_UL` (external collaborator): value `i`
of a `UL` element. -/
def get_value_UL (e : Elem) (i : Nat) : Option Nat :=
  match e with
  | .nums _ "UL" vs => (vs.get? i).map Int.toNat
  | _ => none

/-- Model of `dcm_element_get_value_US` (external collaborator). -/
def get_value_US (e : Elem) (i : Nat) : Option Nat :=
  match e with
  | .nums _ "US" vs => (vs.get? i).map Int.toNat
  | _ => none

/-- Model of `dcm_element_get_value_UI` (external collaborator). -/
def get_value_UI (e : Elem) (i : Nat) : Option String :=
  match e with
  | .strs _ "UI" ps => ps.get? i
  | _ => none

/-- Model of `dcm_element_get_value_IS` (external collaborator). -/
def get_value_IS (e : Elem) (i : Nat) : Option String :=
  match e with
  | .strs _ "IS" ps => ps.get? i
  | _ => none

/-- Model of `dcm_element_get_value_CS` (external collaborator). -/
def get_value_CS (e : Elem) (i : Nat) : Option String :=
  match e with
  | .strs _ "CS" ps => ps.get? i
  | _ => none

/-- Model of `dcm_element_get_value_OV` (external collaborator). -/
def get_value_OV (e : Elem) : Option (List Nat) :=
  match e with
  | .blob _ "OV" bs => some bs
  | _ => none

/-- ASCII bytes of the prefix `DICM`. -/
def DICM : List Nat := [68, 73, 67, 77]

/-- Model of the `while(true)` element loop of `dcm_file_read_file_meta`
(lines 899–941): read a header; a group number other than 0x0002 ends the
loop with the stream left after that header (the C does not rewind); other
elements are read, inserted, and the loop also ends once the byte counter
has reached the group length. -/
def read_file_meta_loop (ext : Ext) (s : Bytes) (group_length : Nat) :
    Nat → Nat → Nat → Dataset → Except DErr (Dataset × Nat × Nat)
  | 0, _, _, _ => .error .FuelExhausted
  | fuel + 1, pos, n, acc =>
    match read_element_header ext s pos n false with
    | none => .error .HeaderFailed
    | some (hdr, pos1, n1) =>
      if groupOf hdr.tag ≠ 2 then .ok (acc, pos1, n1)
      else
        match read_element ext false (fuel + 1) s hdr pos1 n1 with
        | none => .error .ElementFailed
        | some (e, pos2, n2) =>
          match dataset_insert acc e with
          | none => .error .DuplicateTag
          | some acc1 =>
            if group_length ≤ n2 then .ok (acc1, pos2, n2)
            else read_file_meta_loop ext s group_length fuel pos2 n2 acc1

/-- Model of `dcm_file_read_file_meta` (lines 816–959).  Reads from the
handle's current position: 128 preamble bytes (discarded), the `DICM`
prefix, the Group Length element (decoded, not inserted), the File Meta
Information Version element (decoded, not inserted), then the group-0x0002
element loop; finally `offset` is set to the stream position and the
Transfer Syntax UID at tag (0002,0010) is cached. -/
def dcm_file_read_file_meta (ext : Ext) (fuel : Nat) (f : DcmFile) :
    Except DErr Dataset × DcmFile :=
  let pos1 := min (f.fpos + 128) f.bytes.length
  match readBytesAt f.bytes pos1 4 with
  | none => (.error .Undefined, { f with fpos := f.bytes.length })
  | some (pre, pos2) =>
    if pre ≠ DICM then (.error .MissingMagic, { f with fpos := pos2 })
    else
      -- File Meta Information Group Length (size counter restarts at 0)
      match read_element_header ext f.bytes pos2 0 false with
      | none => (.error .HeaderFailed, { f with fpos := pos2 })
      | some (hdr, pos3, n3) =>
        match read_element ext false fuel f.bytes hdr pos3 n3 with
        | none => (.error .ElementFailed, { f with fpos := pos3 })
        | some (gl, pos4, n4) =>
          match get_value_UL gl 0 with
          | none => (.error .Undefined, { f with fpos := pos4 })
          | some group_length =>
            -- File Meta Information Version: read and discarded
            match read_element_header ext f.bytes pos4 n4 false with
            | none => (.error .HeaderFailed, { f with fpos := pos4 })
            | some (hdr2, pos5, n5) =>
              match read_element ext false fuel f.bytes hdr2 pos5 n5 with
              | none => (.error .ElementFailed, { f with fpos := pos5 })
              | some (_, pos6, n6) =>
                match read_file_meta_loop ext f.bytes group_length fuel
                    pos6 n6 [] with
                | .error e => (.error e, { f with fpos := pos6 })
                | .ok (file_meta, pos7, _) =>
                  match dataset_get file_meta 0x00020010 with
                  | none =>
                    (.error .Undefined,
                     { f with fpos := pos7, offset := pos7 })
                  | some e =>
                    match get_value_UI e 0 with
                    | none =>
                      (.error .Undefined,
                       { f with fpos := pos7, offset := pos7 })
                    | some uid =>
                      (.ok file_meta,
                       { f with fpos := pos7, offset := pos7,
                                transfer_syntax_uid := some uid })

/-- Model of the mode computation of `dcm_file_read_metadata`
(lines 997–1002): implicit exactly when the cached Transfer Syntax UID
is present and equals `1.2.840.10008.1.2`. -/
def metadata_implicit (uid : Option String) : Bool :=
  match uid with
  | some u => u = "1.2.840.10008.1.2"
  | none => false

/-- The three pixel data tags tested at lines 1035–1037. -/
def isPixelDataTag (tag : Nat) : Bool :=
  tag = TAG_PIXEL_DATA ∨ tag = TAG_FLOAT_PIXEL_DATA ∨
  tag = TAG_DOUBLE_PIXEL_DATA

/-- Model of the main `while (!feof(...))` loop of `dcm_file_read_metadata`
(lines 1012–1079).  Returns the dataset (or error), the recorded pixel data
offset (`some q` when a pixel data tag was encountered, in which case the C
rewinds by 8 bytes in implicit mode and by 12 in explicit mode and records
`ftell`), and the final stream position. -/
def read_metadata_loop (ext : Ext) (implicit : Bool) (s : Bytes) :
    Nat → Nat → Nat → Dataset → Except DErr Dataset × Option Nat × Nat
  | 0, pos, _, _ => (.error .FuelExhausted, none, pos)
  | fuel + 1, pos, n, acc =>
    if s.length ≤ pos then (.ok acc, none, pos)
    else
      match read_element_header ext s pos n implicit with
      | none => (.error .HeaderFailed, none, pos)
      | some (hdr, pos1, n1) =>
        if hdr.tag = TAG_TRAILING_PADDING then (.ok acc, none, pos1)
        else if isPixelDataTag hdr.tag then
          (.ok acc, some (pos1 - (if implicit then 8 else 12)),
           pos1 - (if implicit then 8 else 12))
        else if groupOf hdr.tag = 2 then
          (.error .UnexpectedFileMetaGroup, none, pos1)
        else
          match read_element ext implicit (fuel + 1) s hdr pos1 n1 with
          | none => (.error .ElementFailed, none, pos1)
          | some (e, pos2, n2) =>
            match dataset_insert acc e with
            | none => (.error .DuplicateTag, none, pos2)
            | some acc1 => read_metadata_loop ext implicit s fuel pos2 n2 acc1

/-- Position of the first byte of the header of the first pixel-data
element the Dataset Reader encounters (together with that header), scanning
with the stop conditions of `read_metadata_loop`; `none` when the loop
terminates or fails without encountering one. -/
def first_pixel_header (ext : Ext) (implicit : Bool) (s : Bytes) :
    Nat → Nat → Nat → Dataset → Option (Nat × EHeader)
  | 0, _, _, _ => none
  | fuel + 1, pos, n, acc =>
    if s.length ≤ pos then none
    else
      match read_element_header ext s pos n implicit with
      | none => none
      | some (hdr, pos1, n1) =>
        if hdr.tag = TAG_TRAILING_PADDING then none
        else if isPixelDataTag hdr.tag then some (pos, hdr)
        else if groupOf hdr.tag = 2 then none
        else
          match read_element ext implicit (fuel + 1) s hdr pos1 n1 with
          | none => none
          | some (e, pos2, n2) =>
            match dataset_insert acc e with
            | none => none
            | some acc1 => first_pixel_header ext implicit s fuel pos2 n2 acc1

/-- The part of `dcm_file_read_metadata` after the File Meta prerequisite:
seek to `offset`, compute the mode, run the element loop, and store the
recorded pixel data offset (the cached field keeps its previous value when
no pixel data tag was encountered). -/
def read_metadata_body (ext : Ext) (fuel : Nat) (f : DcmFile) :
    Except DErr Dataset × DcmFile :=
  match read_metadata_loop ext (metadata_implicit f.transfer_syntax_uid)
      f.bytes fuel f.offset 0 [] with
  | (r, found, posEnd) =>
    (r, { f with fpos := posEnd,
                 pixel_data_offset :=
                   match found with
                   | some q => q
                   | none => f.pixel_data_offset })

/-- Model of `dcm_file_read_metadata` (lines 975–1082): when `offset` is
still zero the File Meta group is read first (its dataset is discarded),
then the main dataset is parsed from `offset`. -/
def dcm_file_read_metadata (ext : Ext) (fuel : Nat) (f : DcmFile) :
    Except DErr Dataset × DcmFile :=
  if f.offset = 0 then
    match dcm_file_read_file_meta ext fuel f with
    | (.error e, f1) => (.error e, f1)
    | (.ok _, f1) => read_metadata_body ext fuel f1
  else read_metadata_body ext fuel f

end Dicom

namespace Dicom

/-- Model of `struct PixelDescription` as filled by
`create_pixel_description` (the C struct's `high_bit` field is never
assigned there and is omitted). -/
structure PixelDescription where
  rows : Nat
  columns : Nat
  samples_per_pixel : Nat
  bits_allocated : Nat
  bits_stored : Nat
  pixel_representation : Nat
  planar_configuration : Nat
  photometric_interpretation : String

/-- Model of `create_pixel_description` (lines 1225–1317): looks the eight
Image Pixel attributes up in the metadata and fails when one is missing. -/
def create_pixel_description (metadata : Dataset) : Option PixelDescription :=
  match dataset_get metadata 0x00280010 with
  | none => none
  | some eRows =>
  match dataset_get metadata 0x00280011 with
  | none => none
  | some eCols =>
  match dataset_get metadata 0x00280002 with
  | none => none
  | some eSpp =>
  match dataset_get metadata 0x00280100 with
  | none => none
  | some eBa =>
  match dataset_get metadata 0x00280101 with
  | none => none
  | some eBs =>
  match dataset_get metadata 0x00280103 with
  | none => none
  | some ePr =>
  match dataset_get metadata 0x00280006 with
  | none => none
  | some ePc =>
  match dataset_get metadata 0x00280004 with
  | none => none
  | some ePi =>
  match get_value_US eRows 0, get_value_US eCols 0, get_value_US eSpp 0,
      get_value_US eBa 0, get_value_US eBs 0, get_value_US ePr 0,
      get_value_US ePc 0, get_value_CS ePi 0 with
  | some rows, some cols, some spp, some ba, some bs, some pr, some pc,
      some pi =>
    some ⟨rows, cols, spp, ba, bs, pr, pc, pi⟩
  | _, _, _, _, _, _, _, _ => none

/-- Value of a decimal digit run. -/
def digitsToNat (cs : List Char) : Nat :=
  cs.foldl (fun acc c => acc * 10 + (c.toNat - 48)) 0

/-- The C `strtol(value, NULL, 10)`: skip leading whitespace, an optional
sign, then the longest leading digit run (an empty run gives 0).  Overflow
clamping to `LONG_MAX`/`LONG_MIN` is not modelled; the inputs of interest
are small. -/
def strtol10 (s : String) : Int :=
  let cs := s.data.dropWhile (fun c => isspace_byte c.toNat)
  match cs with
  | '-' :: rest => -(digitsToNat (rest.takeWhile Char.isDigit) : Int)
  | '+' :: rest => (digitsToNat (rest.takeWhile Char.isDigit) : Int)
  | _ => (digitsToNat (cs.takeWhile Char.isDigit) : Int)

/-- Model of `get_num_frames` (lines 1085–1102): look tag (0028,0008) up,
take its first `IS` string, parse it with `strtol` base 10 and convert the
`long` result to `uint32_t` (reduction modulo `2 ^ 32`). -/
def get_num_frames (metadata : Dataset) : Option Nat :=
  match dataset_get metadata 0x00280008 with
  | none => none
  | some e =>
    match get_value_IS e 0 with
    | none => none
    | some v => some (((strtol10 v).emod (2 ^ 32)).toNat)

/-- Basic Offset Table: model of the external `DcmBOT`
(`dcm_bot_create(offsets, num_frames)`). -/
structure DcmBOT where
  num_frames : Nat
  offsets : List Nat

/-- Modelled from the spec: `dcm_bot_get_frame_offset` (external
collaborator) returns `offsets[number - 1]` for the 1-based frame number. -/
def dcm_bot_get_frame_offset (bot : DcmBOT) (number : Nat) : Option Nat :=
  bot.offsets.get? (number - 1)

/-- Model of the offset-value loop of `dcm_file_read_bot` (lines
1184–1195): read `count` little-endian u32 values, failing with
`MalformedBOT` on a value equal to the Item tag. -/
def read_bot_values (s : Bytes) : Nat → Nat → Except DErr (List Nat)
  | 0, _ => .ok []
  | count + 1, pos =>
    match readBytesAt s pos 4 with
    | none => .error .UnexpectedEof
    | some (bs, pos1) =>
      if leVal bs = TAG_ITEM then .error .MalformedBOT
      else
        match read_bot_values s count pos1 with
        | .error e => .error e
        | .ok vs => .ok (leVal bs :: vs)

/-- The part of `dcm_file_read_bot` after the frame-count checks (lines
1134–1221): require `pixel_data_offset`, re-read the Pixel Data element
header, read the BOT Item header, then either read the offset values
(non-empty BOT Item) or fall into the empty-BOT branch.  In that branch the
C looks the Extended Offset Table attribute up in the metadata, but every
path (lines 1196–1218) — element present or absent, parse success or
failure — falls through to `return NULL`; the model returns the `NoBOT`
error there. -/
def read_bot_pixel_data (ext : Ext) (f : DcmFile) (num_frames : Nat) :
    Except DErr DcmBOT :=
  if f.pixel_data_offset = 0 then .error .MissingPixelDataOffset
  else
    match read_element_header ext f.bytes f.pixel_data_offset 0 false with
    | none => .error .Undefined
    | some (hdr, posA, _) =>
      if ¬ isPixelDataTag hdr.tag then .error .NotPixelDataElement
      else
        match read_item_header f.bytes posA 0 with
        | none => .error .HeaderFailed
        | some (ih, posB, _) =>
          if ih.tag ≠ TAG_ITEM then .error .ExpectedItem
          else if ih.length > 0 then
            match read_bot_values f.bytes num_frames posB with
            | .error e => .error e
            | .ok offsets => .ok ⟨num_frames, offsets⟩
          else
            .error .NoBOT

/-- Model of `dcm_file_read_bot` (lines 1105–1222): transfer syntax must be
encapsulated, the Number of Frames must be readable and its `uint32_t`
value nonzero, then the table is read at the Pixel Data element. -/
def dcm_file_read_bot (ext : Ext) (f : DcmFile) (metadata : Dataset) :
    Except DErr DcmBOT :=
  match f.transfer_syntax_uid with
  | none => .error .Undefined
  | some uid =>
    if ¬ ext.is_encapsulated uid then .error .NotEncapsulated
    else
      match get_num_frames metadata with
      | none => .error .MissingAttribute
      | some num_frames =>
        if num_frames = 0 then .error .BadFrameCount
        else read_bot_pixel_data ext f num_frames

/-- Model of the Frame Item scan of `dcm_file_build_bot` (lines
1404–1434).  `cur` is the running byte counter the C stores the offsets
from: it starts from the uninitialized stack value of `current_offset`
(supplied by the caller as `c0`) and each `read_item_header` adds 8 to it.
A failing item-header read only logs in the C and then dereferences the
null header (undefined behaviour).  The stream skips each item's value
relatively (`SEEK_CUR`). -/
def build_bot_scan (s : Bytes) :
    Nat → Nat → Nat → List Nat → Except DErr (List Nat × Nat × Nat)
  | 0, _, _, _ => .error .FuelExhausted
  | fuel + 1, pos, cur, acc =>
    match read_item_header s pos cur with
    | none => .error .Undefined
    | some (ih, pos1, cur1) =>
      if ih.tag = TAG_SQ_DELIM then .ok (acc.reverse, acc.length, pos1)
      else if ih.tag ≠ TAG_ITEM then .error .ExpectedItem
      else build_bot_scan s fuel (pos1 + ih.length) cur1 (cur1 :: acc)

/-- Model of `dcm_file_build_bot` (lines 1331–1455).  For an encapsulated
transfer syntax the C skips the BOT item value with
`fseek(file->fp, item_length, SEEK_SET)` — an absolute seek to stream
offset `item_length` — and then scans Frame Items from there.  For a native
transfer syntax the offsets are
`i * desc->rows * desc->columns * desc->samples_per_pixel` (no
`bits_allocated / 8` factor); a failing `create_pixel_description` is only
logged and then dereferenced (undefined behaviour). -/
def build_bot_pixel_data (ext : Ext) (fuel : Nat) (f : DcmFile)
    (metadata : Dataset) (c0 : Nat) (num_frames : Nat) : Except DErr DcmBOT :=
  if f.pixel_data_offset = 0 then .error .MissingPixelDataOffset
  else
    match read_element_header ext f.bytes f.pixel_data_offset 0 false with
    | none => .error .Undefined
    | some (hdr, posA, _) =>
      if ¬ isPixelDataTag hdr.tag then .error .NotPixelDataElement
      else
        match f.transfer_syntax_uid with
        | none => .error .Undefined
        | some uid =>
          if ext.is_encapsulated uid then
            match read_item_header f.bytes posA 0 with
            | none => .error .HeaderFailed
            | some (ih, _, _) =>
              if ih.tag ≠ TAG_ITEM then .error .ExpectedItem
              else
                match build_bot_scan f.bytes fuel ih.length c0 [] with
                | .error e => .error e
                | .ok (offsets, i, _) =>
                  if i ≠ num_frames then .error .FrameCountMismatch
                  else .ok ⟨num_frames, offsets⟩
          else
            match create_pixel_description metadata with
            | none => .error .Undefined
            | some desc =>
              .ok ⟨num_frames,
                   (List.range num_frames).map
                     (fun i =>
                       i * desc.rows * desc.columns *
                         desc.samples_per_pixel)⟩

/-- Model of `dcm_file_build_bot` (lines 1331–1455): frame-count checks,
then `build_bot_pixel_data`. -/
def dcm_file_build_bot (ext : Ext) (fuel : Nat) (f : DcmFile)
    (metadata : Dataset) (c0 : Nat) : Except DErr DcmBOT :=
  match get_num_frames metadata with
  | none => .error .MissingAttribute
  | some num_frames =>
    if num_frames = 0 then .error .BadFrameCount
    else build_bot_pixel_data ext fuel f metadata c0 num_frames

/-- Decoded frame: model of the external `DcmFrame` as built by
`dcm_frame_create` at lines 1548–1559 (`high_bit` is not passed there). -/
structure DcmFrame where
  number : Nat
  value : List Nat
  length : Nat
  rows : Nat
  columns : Nat
  samples_per_pixel : Nat
  bits_allocated : Nat
  bits_stored : Nat
  pixel_representation : Nat
  planar_configuration : Nat
  photometric_interpretation : String
  transfer_syntax_uid : String

/-- Model of `dcm_file_read_frame` (lines 1458–1563).  The offset of the
first frame byte past `pixel_data_offset` is `12 + 8 + 4 * num_frames` in
the encapsulated case and the hard-coded `10` in the native case; the
native branch reads `desc->rows * desc->columns * desc->samples_per_pixel`
bytes (again without the `bits_allocated / 8` factor). -/
def dcm_file_read_frame (ext : Ext) (f : DcmFile) (metadata : Dataset)
    (bot : DcmBOT) (number : Nat) : Except DErr DcmFrame :=
  if number = 0 then .error .BadFrameIndex
  else
    match dcm_bot_get_frame_offset bot number with
    | none => .error .Undefined
    | some frame_offset =>
      match f.transfer_syntax_uid with
      | none => .error .Undefined
      | some uid =>
        let first_frame_offset : Nat :=
          if ext.is_encapsulated uid then 12 + 8 + 4 * bot.num_frames else 10
        let total := f.pixel_data_offset + first_frame_offset + frame_offset
        match create_pixel_description metadata with
        | none => .error .MissingAttribute
        | some desc =>
          if ext.is_encapsulated uid then
            match read_item_header f.bytes total 0 with
            | none => .error .HeaderFailed
            | some (ih, posH, _) =>
              if ih.tag ≠ TAG_ITEM then .error .ExpectedItem
              else
                match readBytesAt f.bytes posH ih.length with
                | none => .error .UnexpectedEof
                | some (value, _) =>
                  .ok ⟨number, value, ih.length, desc.rows, desc.columns,
                       desc.samples_per_pixel, desc.bits_allocated,
                       desc.bits_stored, desc.pixel_representation,
                       desc.planar_configuration,
                       desc.photometric_interpretation, uid⟩
          else
            let length := desc.rows * desc.columns * desc.samples_per_pixel
            match readBytesAt f.bytes total length with
            | none => .error .UnexpectedEof
            | some (value, _) =>
              .ok ⟨number, value, length, desc.rows, desc.columns,
                   desc.samples_per_pixel, desc.bits_allocated,
                   desc.bits_stored, desc.pixel_representation,
                   desc.planar_configuration,
                   desc.photometric_interpretation, uid⟩

end Dicom

namespace Dicom

/-- A Part 10 file used for the `read_file_meta` experiments: preamble,
`DICM`, a File Meta group (Group Length 40, a two-byte File Meta Information
Version element, Transfer Syntax UID `1.2.840.10008.1.2.1`) ending at offset
186, a main dataset (one `PN` element, then a Trailing Padding element
header), and — 128 bytes after offset 186 — a second `DICM` prefix followed
by a second File Meta group whose Transfer Syntax UID is
`1.2.840.10008.1.2`. -/
def fileC9bytes : Bytes :=
  List.replicate 128 0 ++ [68, 73, 67, 77]
  ++ [2, 0, 0, 0, 85, 76, 4, 0, 40, 0, 0, 0]
  ++ [2, 0, 1, 0, 79, 66, 0, 0, 2, 0, 0, 0, 0, 1]
  ++ [2, 0, 16, 0, 85, 73, 20, 0]
  ++ [49, 46, 50, 46, 56, 52, 48, 46, 49, 48, 48, 48, 56, 46, 49, 46, 50,
      46, 49, 0]
  ++ [16, 0, 16, 0, 80, 78, 6, 0, 68, 79, 69, 94, 74, 0]
  ++ [0xFC, 0xFF, 0xFC, 0xFF, 79, 66, 0, 0, 0, 0, 0, 0]
  ++ List.replicate 102 0
  ++ [68, 73, 67, 77]
  ++ [2, 0, 0, 0, 85, 76, 4, 0, 40, 0, 0, 0]
  ++ [2, 0, 1, 0, 79, 66, 0, 0, 2, 0, 0, 0, 0, 1]
  ++ [2, 0, 16, 0, 85, 73, 18, 0]
  ++ [49, 46, 50, 46, 56, 52, 48, 46, 49, 48, 48, 48, 56, 46, 49, 46, 50, 0]

/-- The handle state after one successful `read_file_meta` on `fileC9bytes`. -/
def fileC9state : DcmFile :=
  (dcm_file_read_file_meta extDefault 50 (dcm_file_create fileC9bytes)).2

/-- Metadata for the native-transfer-syntax experiments: 2 frames of
2 x 2 pixels, one sample per pixel, 16 bits allocated. -/
def metaC1 : Dataset :=
  [.strs 0x00280008 "IS" ["2"],
   .nums 0x00280010 "US" [2],
   .nums 0x00280011 "US" [2],
   .nums 0x00280002 "US" [1],
   .nums 0x00280100 "US" [16],
   .nums 0x00280101 "US" [16],
   .nums 0x00280103 "US" [0],
   .nums 0x00280006 "US" [0],
   .strs 0x00280004 "CS" ["MONOCHROME2"]]

/-- Bytes for the native frame-extraction experiment: 12 filler bytes, an
explicit `OW` Pixel Data element header at offset 12, then 32 value bytes. -/
def fileC1bytes : Bytes :=
  List.replicate 12 0
  ++ [0xE0, 0x7F, 0x10, 0x00, 79, 87, 0, 0, 32, 0, 0, 0]
  ++ (List.range 32).map (fun i => 100 + i)

/-- Handle positioned on `fileC1bytes` after metadata reading: native
(non-encapsulated) transfer syntax, `pixel_data_offset` 12. -/
def fileC1 : DcmFile :=
  { bytes := fileC1bytes, fpos := 0, offset := 132,
    transfer_syntax_uid := some "1.2.840.10008.1.2.1",
    pixel_data_offset := 12 }

/-- Metadata for the Extended Offset Table experiment: 1 frame and an
Extended Offset Table attribute (tag (7FE0,0001), VR `OV`) holding one
64-bit little-endian offset 0. -/
def metaC2 : Dataset :=
  [.strs 0x00280008 "IS" ["1"],
   .blob TAG_EXTENDED_OFFSET_TABLE "OV" [0, 0, 0, 0, 0, 0, 0, 0]]

/-- Bytes for the Extended Offset Table experiment: filler up to offset 12,
an explicit undefined-length `OB` Pixel Data element header, a Basic Offset
Table Item header with length 0, one Frame Item, and a sequence delimiter. -/
def fileC2bytes : Bytes :=
  List.replicate 12 0
  ++ [0xE0, 0x7F, 0x10, 0x00, 79, 66, 0, 0, 0xFF, 0xFF, 0xFF, 0xFF]
  ++ [0xFE, 0xFF, 0x00, 0xE0, 0, 0, 0, 0]
  ++ [0xFE, 0xFF, 0x00, 0xE0, 4, 0, 0, 0] ++ [1, 2, 3, 4]
  ++ [0xFE, 0xFF, 0xDD, 0xE0, 0, 0, 0, 0]

/-- Handle on `fileC2bytes`: encapsulated transfer syntax,
`pixel_data_offset` 12. -/
def fileC2 : DcmFile :=
  { bytes := fileC2bytes, fpos := 0, offset := 132,
    transfer_syntax_uid := some "1.2.840.10008.1.2.4.50",
    pixel_data_offset := 12 }

/-- Metadata with a single frame. -/
def metaC3 : Dataset := [.strs 0x00280008 "IS" ["1"]]

/-- Bytes for the BOT-building experiment.  The file starts (inside the
128-byte preamble region, whose content is arbitrary) with bytes that
happen to form a Sequence Delimitation Item header.  The Pixel Data element
header sits at offset 20, the empty BOT Item header at 32, one Frame Item
of length 4 at 40, and the sequence delimiter at 52. -/
def fileC3bytes : Bytes :=
  [0xFE, 0xFF, 0xDD, 0xE0, 0, 0, 0, 0]
  ++ List.replicate 12 0
  ++ [0xE0, 0x7F, 0x10, 0x00, 79, 66, 0, 0, 0xFF, 0xFF, 0xFF, 0xFF]
  ++ [0xFE, 0xFF, 0x00, 0xE0, 0, 0, 0, 0]
  ++ [0xFE, 0xFF, 0x00, 0xE0, 4, 0, 0, 0] ++ [1, 2, 3, 4]
  ++ [0xFE, 0xFF, 0xDD, 0xE0, 0, 0, 0, 0]

/-- Handle on `fileC3bytes`: encapsulated transfer syntax,
`pixel_data_offset` 20. -/
def fileC3 : DcmFile :=
  { bytes := fileC3bytes, fpos := 0, offset := 132,
    transfer_syntax_uid := some "1.2.840.10008.1.2.4.50",
    pixel_data_offset := 20 }

/-- Metadata whose Number of Frames value is the negative integer string
`-1`. -/
def metaC6neg : Dataset := [.strs 0x00280008 "IS" ["-1"]]

/-- Metadata whose Number of Frames value is `0`. -/
def metaC6zero : Dataset := [.strs 0x00280008 "IS" ["0"]]

/-- Handle with an encapsulated transfer syntax whose `pixel_data_offset`
is still zero (metadata not read). -/
def fileC6 : DcmFile :=
  { bytes := [], fpos := 0, offset := 132,
    transfer_syntax_uid := some "1.2.840.10008.1.2.4.50",
    pixel_data_offset := 0 }

/-- Handle for the pixel-data-offset experiment: implicit transfer syntax,
File Meta region ending at offset 1, and an implicit Pixel Data element
header at offset 1 of the stream. -/
def fileC8 : DcmFile :=
  { bytes := [0, 0xE0, 0x7F, 0x10, 0x00, 0, 0, 0, 0], fpos := 0, offset := 1,
    transfer_syntax_uid := some "1.2.840.10008.1.2",
    pixel_data_offset := 0 }

/-- The fixed-width numeric VRs with their element sizes, as decoded by the
numeric branches of `read_element` (lines 631–742). -/
def fixedWidthVRs : List (String × Nat) :=
  [("FD", 8), ("FL", 4), ("SS", 2), ("SL", 4), ("SV", 8), ("UL", 4),
   ("US", 2), ("UV", 8)]

end Dicom

namespace Dicom

set_option maxRecDepth 10000

/-- A successful exact read ends at `pos + len`. -/
theorem readBytesAt_some {s : Bytes} {pos len : Nat} {bs : List Nat}
    {pos' : Nat} (h : readBytesAt s pos len = some (bs, pos')) :
    pos' = pos + len ∧ pos + len ≤ s.length := by
  unfold readBytesAt at h
  split at h
  · simp only [Option.some.injEq, Prod.mk.injEq] at h
    exact ⟨h.2.symm, by assumption⟩
  · exact absurd h (by simp)

/-- `read_values` with enough bytes available reads exactly `count` values
of `sz` bytes each. -/
theorem read_values_spec (s : Bytes) (conv : Nat → Int) (sz : Nat) :
    ∀ count pos n, pos + sz * count ≤ s.length →
      ∃ vs, read_values s conv sz count pos n
          = some (vs, pos + sz * count, n + sz * count) ∧ vs.length = count := by
  intro count
  induction count with
  | zero => intro pos n _; exact ⟨[], by simp [read_values], rfl⟩
  | succ count ih =>
    intro pos n h
    have hmul : sz * (count + 1) = sz * count + sz := by ring
    have hb : pos + sz ≤ s.length := by omega
    have hread : readBytesAt s pos sz = some ((s.drop pos).take sz, pos + sz) := by
      unfold readBytesAt
      rw [if_pos hb]
    obtain ⟨vs, hvs, hlen⟩ := ih (pos + sz) (n + sz) (by omega)
    refine ⟨conv (leVal ((s.drop pos).take sz)) :: vs, ?_, by simp [hlen]⟩
    simp only [read_values, hread, hvs]
    have h1 : pos + sz + sz * count = pos + sz * (count + 1) := by omega
    have h2 : n + sz + sz * count = n + sz * (count + 1) := by omega
    rw [h1, h2]

/-- Appending a NUL byte does not change the C-string view. -/
theorem cstring_append_zero (bs : List Nat) :
    cstring (bs ++ [0]) = cstring bs := by
  induction bs with
  | nil => simp [cstring]
  | cons b rest ih =>
    by_cases hb : b = 0
    · simp [cstring, hb]
    · simpa [cstring, hb] using ih

/-- C7: `read_metadata` parses the main dataset in Implicit VR mode exactly
when the cached Transfer Syntax UID string is `1.2.840.10008.1.2`; any
other cached UID — and an absent one — gives Explicit mode. -/
theorem C7_implicit_mode :
    (∀ uid : String,
      metadata_implicit (some uid) = true ↔ uid = "1.2.840.10008.1.2")
  ∧ metadata_implicit none = false := by
  constructor
  · intro uid
    simp [metadata_implicit]
  · rfl

/-- C10: an `SQ` element header with declared length 0, in either mode,
decodes to an element holding an empty Sequence, leaves the stream position
unchanged and leaves the caller's running byte count unchanged. -/
theorem C10_empty_sequence (ext : Ext) (implicit : Bool) (fuel : Nat)
    (s : Bytes) (tag pos n : Nat) :
    read_element ext implicit (fuel + 1) s ⟨tag, "SQ", 0⟩ pos n
      = some (.sq tag [], pos, n) := by
  simp [read_element, isCharStringVR]

/-- C4 (counterexample): a `US` element of declared length 7 does not fail
with `MalformedLength`; the decoder truncates and produces 3 values. -/
theorem C4_counterexample :
    read_element extDefault false 1 [1, 0, 2, 0, 3, 0, 9]
      ⟨0x00280008, "US", 7⟩ 0 0
      = some (.nums 0x00280008 "US" [1, 2, 3], 6, 6) := rfl

/-- C4 (amended): every fixed-width numeric VR decodes exactly
`length / element_size` little-endian values — also when the length is not
a multiple of the element size, in which case the quotient truncates (no
`MalformedLength` failure exists in the code). -/
theorem C4_fixed_width (ext : Ext) (implicit : Bool) (fuel : Nat)
    (s : Bytes) (tag len pos n : Nat) (vr : String) (sz : Nat)
    (hvr : (vr, sz) ∈ fixedWidthVRs)
    (hs : pos + sz * (len / sz) ≤ s.length) :
    ∃ vs, read_element ext implicit (fuel + 1) s ⟨tag, vr, len⟩ pos n
        = some (.nums tag vr vs, pos + sz * (len / sz), n + sz * (len / sz))
      ∧ vs.length = len / sz := by
  simp only [fixedWidthVRs, List.mem_cons, List.mem_singleton,
    Prod.mk.injEq, List.not_mem_nil, or_false] at hvr
  rcases hvr with h | h | h | h | h | h | h | h <;>
  · obtain ⟨rfl, rfl⟩ := h
    simp +decide only [read_element, isCharStringVR]
    simp only [if_true, if_false]
    obtain ⟨vs, hvs, hlen⟩ := read_values_spec s _ _ (len / _) pos n hs
    rw [hvs]
    exact ⟨vs, rfl, hlen⟩

/-- C4 (witness): a `US` element of length 8 decodes to exactly 4 values. -/
theorem C4_fixed_width_witness :
    ∃ vs, read_element extDefault false 1 [1, 0, 2, 0, 3, 0, 4, 0]
        ⟨0x00280008, "US", 8⟩ 0 0
        = some (.nums 0x00280008 "US" vs, 0 + 2 * (8 / 2), 0 + 2 * (8 / 2))
      ∧ vs.length = 8 / 2 :=
  C4_fixed_width extDefault false 0 [1, 0, 2, 0, 3, 0, 4, 0] 0x00280008 8 0 0
    "US" 2 (by decide) (by decide)

end Dicom

namespace Dicom

/-- C5: character-string value decoding.  (1) For a character-string VR
other than `UI`, a buffer whose final byte satisfies `isspace` loses exactly
that byte before splitting.  (2) A final byte that is not whitespace is
kept, for every VR.  (3) A `UI` buffer is never stripped.  (4) The empty
buffer parses to exactly one empty string.  (5) Hence a buffer of the form
`a\b\c` plus one whitespace byte splits into the parts `a`, `b`, `c` for
every non-`UI` character-string VR.  (6) The same, end to end through
`read_element` for a `SH` element of length 6 with a trailing space. -/
theorem C5_character_strings :
    (∀ vr bs b, isCharStringVR vr = true → vr ≠ "UI" → isspace_byte b = true →
      char_value_parts vr (bs ++ [b]) = parse_character_string (cstring bs))
  ∧ (∀ vr bs b, isspace_byte b = false →
      char_value_parts vr (bs ++ [b])
        = parse_character_string (cstring (bs ++ [b])))
  ∧ (∀ bs, char_value_parts "UI" bs = parse_character_string (cstring bs))
  ∧ parse_character_string [] = [""]
  ∧ (∀ vr b, isCharStringVR vr = true → vr ≠ "UI" → isspace_byte b = true →
      char_value_parts vr ([97, 92, 98, 92, 99] ++ [b]) = ["a", "b", "c"])
  ∧ read_element extDefault false 1 [97, 92, 98, 92, 99, 32]
      ⟨0x00080018, "SH", 6⟩ 0 0
      = some (.strs 0x00080018 "SH" ["a", "b", "c"], 6, 6) := by
  have hstrip : ∀ vr bs b, vr ≠ "UI" → isspace_byte b = true →
      char_value_parts vr (bs ++ [b]) = parse_character_string (cstring bs) := by
    intro vr bs b hui hb
    unfold char_value_parts char_value_bytes
    rw [if_pos ⟨by simp, hui, by rw [List.getLast?_concat]; exact hb⟩]
    rw [List.dropLast_concat, cstring_append_zero, cstring_append_zero]
  have hkeep : ∀ vr bs b, isspace_byte b = false →
      char_value_parts vr (bs ++ [b])
        = parse_character_string (cstring (bs ++ [b])) := by
    intro vr bs b hb
    unfold char_value_parts char_value_bytes
    rw [if_neg, cstring_append_zero]
    intro hcond
    rw [List.getLast?_concat] at hcond
    simp only [Option.getD_some] at hcond
    exact absurd hcond.2.2 (by simp [hb])
  refine ⟨fun vr bs b _ => hstrip vr bs b, hkeep, ?_, rfl, ?_, rfl⟩
  · intro bs
    unfold char_value_parts char_value_bytes
    rw [if_neg (by intro hcond; exact hcond.2.1 rfl), cstring_append_zero]
  · intro vr b hvr hui hb
    rw [hstrip vr [97, 92, 98, 92, 99] b hui hb]
    rfl

/-- C5 (witness): stripping at a concrete input — VR `SH`, buffer `a`
followed by a space. -/
theorem C5_character_strings_witness :
    char_value_parts "SH" ([97] ++ [32]) = parse_character_string (cstring [97]) :=
  C5_character_strings.1 "SH" [97] 32 (by decide) (by decide) (by decide)

end Dicom

namespace Dicom

/-- C1: on a native (non-encapsulated) transfer syntax with 2 x 2 pixels,
1 sample per pixel and 16 bits allocated, `dcm_file_build_bot` computes the
second frame's offset as `1 * 2 * 2 * 1 = 4` and `dcm_file_read_frame`
reads `2 * 2 * 1 = 4` bytes — while the claimed formula with the
`bits_allocated / 8` factor gives 8.  The code omits the factor. -/
theorem C1_missing_bits_allocated_factor :
    dcm_file_build_bot extDefault 10 fileC1 metaC1 0 = .ok ⟨2, [0, 4]⟩
  ∧ (dcm_file_read_frame extDefault fileC1 metaC1 ⟨2, [0, 4]⟩ 2).map
      (fun fr => fr.length) = .ok 4
  ∧ 1 * 2 * 2 * 1 * (16 / 8) = 8
  ∧ (4 : Nat) ≠ 8 :=
  ⟨rfl, rfl, rfl, by decide⟩

/-- C2: on an encapsulated file whose BOT Item has length 0 while the
metadata carries an Extended Offset Table attribute (tag (7FE0,0001),
VR `OV`), `dcm_file_read_bot` still returns failure: all paths of the
empty-BOT branch end in `return NULL`. -/
theorem C2_eot_returns_null :
    (dataset_get metaC2 TAG_EXTENDED_OFFSET_TABLE).isSome = true
  ∧ dcm_file_read_bot extDefault fileC2 metaC2 = .error .NoBOT :=
  ⟨rfl, rfl⟩

/-- C3: after reading the BOT Item header (length 0) at stream offset
32–39, `dcm_file_build_bot` seeks to ABSOLUTE offset 0 (`SEEK_SET`) instead
of skipping 0 bytes forward, reads what happens to sit at the start of the
preamble as an item header, and fails with `FrameCountMismatch` — while a
scan from the position after the BOT item header (offset 40, as the claim
prescribes) finds exactly the one Frame Item. -/
theorem C3_absolute_seek :
    dcm_file_build_bot extDefault 10 fileC3 metaC3 0 = .error .FrameCountMismatch
  ∧ build_bot_scan fileC3.bytes 10 (40 + 0) 0 [] = .ok ([8], 1, 60) :=
  ⟨rfl, rfl⟩

/-- C6 (counterexample): a Number of Frames value of `-1` parses to a
negative integer, yet `dcm_file_read_bot` does not fail with
`BadFrameCount`: the `(uint32_t)` conversion turns `-1` into
`4294967295 ≠ 0`, the frame-count check passes, and the failure surfaces
only at the later `pixel_data_offset` check. -/
theorem C6_counterexample :
    strtol10 "-1" ≤ 0
  ∧ get_num_frames metaC6neg = some 4294967295
  ∧ dcm_file_read_bot extDefault fileC6 metaC6neg
      = .error .MissingPixelDataOffset :=
  ⟨by decide, by decide, rfl⟩

end Dicom

namespace Dicom

set_option maxRecDepth 20000

/-- The main-dataset parse result depends only on the handle's bytes,
`offset` and cached Transfer Syntax UID. -/
theorem read_metadata_body_fst (ext : Ext) (fuel : Nat) (f g : DcmFile)
    (hb : g.bytes = f.bytes) (ho : g.offset = f.offset)
    (ht : g.transfer_syntax_uid = f.transfer_syntax_uid) :
    (read_metadata_body ext fuel g).1 = (read_metadata_body ext fuel f).1 := by
  unfold read_metadata_body
  rw [hb, ho, ht]

/-- `read_metadata_body` changes neither the bytes nor `offset` nor the
cached Transfer Syntax UID. -/
theorem read_metadata_body_state (ext : Ext) (fuel : Nat) (f : DcmFile) :
    (read_metadata_body ext fuel f).2.bytes = f.bytes
  ∧ (read_metadata_body ext fuel f).2.offset = f.offset
  ∧ (read_metadata_body ext fuel f).2.transfer_syntax_uid
      = f.transfer_syntax_uid := by
  unfold read_metadata_body
  rcases read_metadata_loop ext (metadata_implicit f.transfer_syntax_uid)
    f.bytes fuel f.offset 0 [] with ⟨r, found, posEnd⟩
  exact ⟨rfl, rfl, rfl⟩

/-- C9 (counterexample): on `fileC9bytes`, two successive successful
`read_file_meta` calls return different datasets — the second call reads
from the position the first one left and decodes the second File Meta group
embedded further into the file, whose Transfer Syntax UID differs. -/
theorem C9_counterexample :
    (dcm_file_read_file_meta extDefault 50 (dcm_file_create fileC9bytes)).1
      = .ok [.strs 0x00020010 "UI" ["1.2.840.10008.1.2.1"]]
  ∧ (dcm_file_read_file_meta extDefault 50 fileC9state).1
      = .ok [.strs 0x00020010 "UI" ["1.2.840.10008.1.2"]]
  ∧ ("1.2.840.10008.1.2.1" : String) ≠ "1.2.840.10008.1.2" :=
  ⟨rfl, rfl, by decide⟩

/-- C9 (amended): `read_metadata` after a completed `read_metadata` (or any
state with `offset` already set) returns the same dataset content, because
the parse restarts from the cached `offset`; but `read_file_meta` reads
from the current stream position without rewinding, so a second call fails
with `MissingMagic` whenever the four bytes 128 further on are not `DICM`
(and can even return a different dataset when they are). -/
theorem C9_idempotence :
    (∀ ext fuel f, f.offset ≠ 0 →
      (dcm_file_read_metadata ext fuel f).1
        = (dcm_file_read_metadata ext fuel
            (dcm_file_read_metadata ext fuel f).2).1)
  ∧ (∀ ext fuel f pre pos2,
      readBytesAt f.bytes (min (f.fpos + 128) f.bytes.length) 4
        = some (pre, pos2) →
      pre ≠ DICM →
      (dcm_file_read_file_meta ext fuel f).1 = .error .MissingMagic) := by
  constructor
  · intro ext fuel f h
    have e1 : dcm_file_read_metadata ext fuel f = read_metadata_body ext fuel f := by
      unfold dcm_file_read_metadata
      rw [if_neg h]
    have hsn := read_metadata_body_state ext fuel f
    have h2 : (read_metadata_body ext fuel f).2.offset ≠ 0 := by
      rw [hsn.2.1]; exact h
    have e2 : dcm_file_read_metadata ext fuel (read_metadata_body ext fuel f).2
        = read_metadata_body ext fuel (read_metadata_body ext fuel f).2 := by
      unfold dcm_file_read_metadata
      rw [if_neg h2]
    rw [e1, e2,
      read_metadata_body_fst ext fuel f _ hsn.1 hsn.2.1 hsn.2.2]
  · intro ext fuel f pre pos2 hread hne
    unfold dcm_file_read_file_meta
    dsimp only
    rw [hread]
    dsimp only
    rw [if_pos hne]

/-- C9 (witness): idempotence of `read_metadata` applied at the concrete
handle left by a successful `read_file_meta`. -/
theorem C9_idempotence_witness :
    (dcm_file_read_metadata extDefault 50 fileC9state).1
      = (dcm_file_read_metadata extDefault 50
          (dcm_file_read_metadata extDefault 50 fileC9state).2).1 :=
  C9_idempotence.1 extDefault 50 fileC9state (by decide)

end Dicom

namespace Dicom

set_option maxRecDepth 20000

/-- The BOT value loop never produces the `BadFrameCount` error. -/
theorem read_bot_values_ne_bfc (s : Bytes) :
    ∀ count pos, read_bot_values s count pos ≠ .error .BadFrameCount := by
  intro count
  induction count with
  | zero =>
    intro pos h
    simp [read_bot_values] at h
  | succ count ih =>
    intro pos h
    unfold read_bot_values at h
    split at h
    · exact absurd (Except.error.inj h) (by decide)
    · split at h
      · exact absurd (Except.error.inj h) (by decide)
      · split at h
        · rename_i e heq
          obtain rfl := Except.error.inj h
          exact ih _ heq
        · simp at h

/-- The Frame Item scan never produces the `BadFrameCount` error. -/
theorem build_bot_scan_ne_bfc (s : Bytes) :
    ∀ fuel pos cur acc, build_bot_scan s fuel pos cur acc
      ≠ .error .BadFrameCount := by
  intro fuel
  induction fuel with
  | zero =>
    intro pos cur acc h
    unfold build_bot_scan at h
    exact absurd (Except.error.inj h) (by decide)
  | succ fuel ih =>
    intro pos cur acc h
    unfold build_bot_scan at h
    split at h
    · exact absurd (Except.error.inj h) (by decide)
    · split at h
      · simp at h
      · split at h
        · exact absurd (Except.error.inj h) (by decide)
        · exact ih _ _ _ h

/-- After the frame-count checks, `read_bot` can no longer fail with
`BadFrameCount`. -/
theorem read_bot_pixel_data_ne_bfc (ext : Ext) (f : DcmFile)
    (num_frames : Nat) :
    read_bot_pixel_data ext f num_frames ≠ .error .BadFrameCount := by
  intro h
  unfold read_bot_pixel_data at h
  split at h
  · exact absurd (Except.error.inj h) (by decide)
  · split at h
    · exact absurd (Except.error.inj h) (by decide)
    · split at h
      · exact absurd (Except.error.inj h) (by decide)
      · split at h
        · exact absurd (Except.error.inj h) (by decide)
        · split at h
          · exact absurd (Except.error.inj h) (by decide)
          · split at h
            · split at h
              · rename_i e heq
                obtain rfl := Except.error.inj h
                exact read_bot_values_ne_bfc _ _ _ heq
              · simp at h
            · exact absurd (Except.error.inj h) (by decide)

/-- After the frame-count checks, `build_bot` can no longer fail with
`BadFrameCount`. -/
theorem build_bot_pixel_data_ne_bfc (ext : Ext) (fuel : Nat) (f : DcmFile)
    (metadata : Dataset) (c0 : Nat) (num_frames : Nat) :
    build_bot_pixel_data ext fuel f metadata c0 num_frames
      ≠ .error .BadFrameCount := by
  intro h
  unfold build_bot_pixel_data at h
  split at h
  · exact absurd (Except.error.inj h) (by decide)
  · split at h
    · exact absurd (Except.error.inj h) (by decide)
    · split at h
      · exact absurd (Except.error.inj h) (by decide)
      · split at h
        · exact absurd (Except.error.inj h) (by decide)
        · split at h
          · split at h
            · exact absurd (Except.error.inj h) (by decide)
            · split at h
              · exact absurd (Except.error.inj h) (by decide)
              · split at h
                · rename_i e heq
                  obtain rfl := Except.error.inj h
                  exact build_bot_scan_ne_bfc _ _ _ _ _ heq
                · split at h
                  · exact absurd (Except.error.inj h) (by decide)
                  · simp at h
          · split at h
            · exact absurd (Except.error.inj h) (by decide)
            · simp at h

/-- C6 (amended): both `read_bot` and `build_bot` look the Number of
Frames element (tag (0028,0008), VR `IS`) up, parse it with base-10
`strtol` and convert the result to `uint32_t`; they fail with
`BadFrameCount` exactly when that converted value is zero.  A negative
parsed value whose 32-bit conversion is nonzero (such as `-1`) passes the
check. -/
theorem C6_frame_count :
    (∀ (ext : Ext) (f : DcmFile) (meta : Dataset) (uid : String),
      f.transfer_syntax_uid = some uid → ext.is_encapsulated uid = true →
      (dcm_file_read_bot ext f meta = .error .BadFrameCount
        ↔ get_num_frames meta = some 0))
  ∧ (∀ (ext : Ext) (fuel : Nat) (f : DcmFile) (meta : Dataset) (c0 : Nat),
      dcm_file_build_bot ext fuel f meta c0 = .error .BadFrameCount
        ↔ get_num_frames meta = some 0)
  ∧ (∀ (meta : Dataset) (e : Elem) (v : String),
      dataset_get meta 0x00280008 = some e → get_value_IS e 0 = some v →
      get_num_frames meta = some (((strtol10 v).emod (2 ^ 32)).toNat)) := by
  refine ⟨?_, ?_, ?_⟩
  · intro ext f meta uid ht he
    unfold dcm_file_read_bot
    rw [ht]
    dsimp only
    rw [if_neg (by simp [he])]
    constructor
    · intro h
      rcases hg : get_num_frames meta with _ | k
      · rw [hg] at h
        exact absurd (Except.error.inj h) (by decide)
      · rw [hg] at h
        dsimp only at h
        by_cases hk : k = 0
        · simp [hg, hk]
        · rw [if_neg hk] at h
          exact absurd h (read_bot_pixel_data_ne_bfc ext f k)
    · intro hg
      rw [hg]
      dsimp only
      rw [if_pos rfl]
  · intro ext fuel f meta c0
    unfold dcm_file_build_bot
    constructor
    · intro h
      rcases hg : get_num_frames meta with _ | k
      · rw [hg] at h
        exact absurd (Except.error.inj h) (by decide)
      · rw [hg] at h
        dsimp only at h
        by_cases hk : k = 0
        · simp [hg, hk]
        · rw [if_neg hk] at h
          exact absurd h (build_bot_pixel_data_ne_bfc ext fuel f meta c0 k)
    · intro hg
      rw [hg]
      dsimp only
      rw [if_pos rfl]
  · intro meta e v hd hv
    unfold get_num_frames
    rw [hd]
    dsimp only
    rw [hv]

/-- C6 (witness): a Number of Frames value `0` makes `read_bot` fail with
`BadFrameCount` on a concrete encapsulated handle. -/
theorem C6_frame_count_witness :
    dcm_file_read_bot extDefault fileC6 metaC6zero = .error .BadFrameCount :=
  (C6_frame_count.1 extDefault fileC6 metaC6zero "1.2.840.10008.1.2.4.50" rfl
    (by decide)).mpr (by decide)

end Dicom

namespace Dicom

set_option maxRecDepth 20000

/-- A successful `read_tag` advances the position and the counter by 4. -/
theorem read_tag_some {s : Bytes} {pos n t pos' n' : Nat}
    (h : read_tag s pos n = some (t, pos', n')) :
    pos' = pos + 4 ∧ n' = n + 4 := by
  unfold read_tag at h
  split at h
  · exact absurd h (by simp)
  · rename_i g pos1 heq1
    split at h
    · exact absurd h (by simp)
    · rename_i e pos2 heq2
      obtain ⟨h1, _⟩ := readBytesAt_some heq1
      obtain ⟨h3, _⟩ := readBytesAt_some heq2
      simp only [Option.some.injEq, Prod.mk.injEq] at h
      omega

/-- A successful `eheader_create` returns exactly its arguments. -/
theorem eheader_create_some {ext : Ext} {tag : Nat} {vr : String}
    {len : Nat} {h : EHeader}
    (he : eheader_create ext tag vr len = some h) : h = ⟨tag, vr, len⟩ := by
  unfold eheader_create at he
  split at he
  · split at he
    · exact (Option.some.inj he).symm
    · exact absurd he (by simp)
  · exact absurd he (by simp)

/-- A successful element-header read advances the position by the on-wire
header size: 8 bytes in implicit mode, 8 for an explicit short-length VR,
12 for an explicit long-length VR. -/
theorem read_element_header_some {ext : Ext} {s : Bytes} {pos n : Nat}
    {implicit : Bool} {hdr : EHeader} {pos' n' : Nat}
    (h : read_element_header ext s pos n implicit = some (hdr, pos', n')) :
    pos' = pos +
      (if implicit then 8 else if isShortLengthVR hdr.vr then 8 else 12) := by
  unfold read_element_header at h
  split at h
  · exact absurd h (by simp)
  · rename_i t pos1 n1 heq
    obtain ⟨hp1, _⟩ := read_tag_some heq
    split at h
    · rename_i himpl
      rw [if_pos himpl]
      split at h
      · exact absurd h (by simp)
      · rename_i len pos2 heq2
        dsimp only at h
        split at h
        · exact absurd h (by simp)
        · rename_i hd heq3
          obtain rfl := eheader_create_some heq3
          obtain ⟨h2, _⟩ := readBytesAt_some heq2
          simp only [Option.some.injEq, Prod.mk.injEq] at h
          omega
    · rename_i himpl
      rw [if_neg himpl]
      split at h
      · exact absurd h (by simp)
      · rename_i vrb pos2 heq2
        obtain ⟨h2, _⟩ := readBytesAt_some heq2
        dsimp only at h
        split at h
        · rename_i hshort
          split at h
          · exact absurd h (by simp)
          · rename_i len pos3 heq3
            split at h
            · exact absurd h (by simp)
            · rename_i hd heq4
              obtain rfl := eheader_create_some heq4
              obtain ⟨h3, _⟩ := readBytesAt_some heq3
              simp only [Option.some.injEq, Prod.mk.injEq] at h
              obtain ⟨hhdr, hpos, _⟩ := h
              rw [← hhdr]
              rw [if_pos hshort]
              omega
        · rename_i hshort
          split at h
          · exact absurd h (by simp)
          · rename_i res pos3 heq3
            split at h
            · exact absurd h (by simp)
            · split at h
              · exact absurd h (by simp)
              · rename_i len pos4 heq4
                split at h
                · exact absurd h (by simp)
                · rename_i hd heq5
                  obtain rfl := eheader_create_some heq5
                  obtain ⟨h3, _⟩ := readBytesAt_some heq3
                  obtain ⟨h4, _⟩ := readBytesAt_some heq4
                  simp only [Option.some.injEq, Prod.mk.injEq] at h
                  obtain ⟨hhdr, hpos, _⟩ := h
                  rw [← hhdr]
                  rw [if_neg hshort]
                  omega

/-- A successful `read_values` never rewinds the stream. -/
theorem read_values_mono (s : Bytes) (conv : Nat → Int) (sz : Nat) :
    ∀ count pos n vs pos' n',
      read_values s conv sz count pos n = some (vs, pos', n') → pos ≤ pos' := by
  intro count
  induction count with
  | zero =>
    intro pos n vs pos' n' h
    simp [read_values] at h
    omega
  | succ count ih =>
    intro pos n vs pos' n' h
    unfold read_values at h
    split at h
    · exact absurd h (by simp)
    · rename_i bs pos1 heq
      split at h
      · exact absurd h (by simp)
      · rename_i vs2 pos2 n2 heq2
        obtain ⟨hp, _⟩ := readBytesAt_some heq
        have := ih _ _ _ _ _ heq2
        simp only [Option.some.injEq, Prod.mk.injEq] at h
        omega

end Dicom

namespace Dicom

set_option maxRecDepth 20000

/-- A successful item-header read advances position and counter by 8. -/
theorem read_item_header_some {s : Bytes} {pos n : Nat} {ih : IHeader}
    {pos' n' : Nat} (h : read_item_header s pos n = some (ih, pos', n')) :
    pos' = pos + 8 ∧ n' = n + 8 := by
  unfold read_item_header at h
  split at h
  · exact absurd h (by simp)
  · rename_i t pos1 n1 heq
    obtain ⟨hp1, hn1⟩ := read_tag_some heq
    split at h
    · exact absurd h (by simp)
    · rename_i len pos2 heq2
      obtain ⟨hp2, _⟩ := readBytesAt_some heq2
      split at h
      · exact absurd h (by simp)
      · simp only [Option.some.injEq, Prod.mk.injEq] at h
        omega

end Dicom

namespace Dicom

set_option maxRecDepth 20000

/-- No parse of an element, of sequence items, or of the elements inside an
item ever leaves the stream before the position where it started. -/
theorem parse_mono (ext : Ext) (implicit : Bool) : ∀ fuel : Nat,
    (∀ s hdr pos n e pos' n',
      read_element ext implicit fuel s hdr pos n = some (e, pos', n') →
        pos ≤ pos')
  ∧ (∀ s len pos ns acc out pos' n',
      read_sq_items ext implicit fuel s len pos ns acc = some (out, pos', n') →
        pos ≤ pos')
  ∧ (∀ s il pos ni acc out pos' n',
      read_item_elems ext implicit fuel s il pos ni acc
        = some (out, pos', n') → pos ≤ pos') := by
  intro fuel
  induction fuel with
  | zero =>
    refine ⟨?_, ?_, ?_⟩
    · intro s hdr pos n e pos' n' h
      exact absurd h (by simp [read_element])
    · intro s len pos ns acc out pos' n' h
      exact absurd h (by simp [read_sq_items])
    · intro s il pos ni acc out pos' n' h
      exact absurd h (by simp [read_item_elems])
  | succ fuel ih =>
    obtain ⟨ihE, ihS, ihI⟩ := ih
    refine ⟨?_, ?_, ?_⟩
    · intro s hdr pos n e pos' n' h
      rw [read_element] at h
      by_cases hc : isCharStringVR hdr.vr = true
      · rw [if_pos hc] at h
        split at h
        · exact absurd h (by simp)
        · rename_i buf pos1 heq
          obtain ⟨hp, _⟩ := readBytesAt_some heq
          dsimp only at h
          by_cases hsv : isSingleValuedVR hdr.vr = true
          · rw [if_pos hsv] at h
            by_cases hvm : (char_value_parts hdr.vr buf).length > 1
            · rw [if_pos hvm] at h
              exact absurd h (by simp)
            · rw [if_neg hvm] at h
              split at h
              · simp only [Option.some.injEq, Prod.mk.injEq] at h
                omega
              · exact absurd h (by simp)
          · rw [if_neg hsv] at h
            simp only [Option.some.injEq, Prod.mk.injEq] at h
            omega
      · rw [if_neg hc] at h
        by_cases hsq : hdr.vr = "SQ"
        · rw [if_pos hsq] at h
          by_cases hl : hdr.length = 0
          · rw [if_pos hl] at h
            simp only [Option.some.injEq, Prod.mk.injEq] at h
            omega
          · rw [if_neg hl] at h
            split at h
            · exact absurd h (by simp)
            · rename_i items pos1 nseq heq
              have hs := ihS _ _ _ _ _ _ _ _ heq
              simp only [Option.some.injEq, Prod.mk.injEq] at h
              omega
        · rw [if_neg hsq] at h
          by_cases h1 : hdr.vr = "FD"
          · rw [if_pos h1] at h
            split at h
            · exact absurd h (by simp)
            · rename_i vs pos1 nn1 heq
              have hv := read_values_mono _ _ _ _ _ _ _ _ _ heq
              simp only [Option.some.injEq, Prod.mk.injEq] at h
              omega
          · rw [if_neg h1] at h
            by_cases h2 : hdr.vr = "FL"
            · rw [if_pos h2] at h
              split at h
              · exact absurd h (by simp)
              · rename_i vs pos1 nn1 heq
                have hv := read_values_mono _ _ _ _ _ _ _ _ _ heq
                simp only [Option.some.injEq, Prod.mk.injEq] at h
                omega
            · rw [if_neg h2] at h
              by_cases h3 : hdr.vr = "SS"
              · rw [if_pos h3] at h
                split at h
                · exact absurd h (by simp)
                · rename_i vs pos1 nn1 heq
                  have hv := read_values_mono _ _ _ _ _ _ _ _ _ heq
                  simp only [Option.some.injEq, Prod.mk.injEq] at h
                  omega
              · rw [if_neg h3] at h
                by_cases h4 : hdr.vr = "SL"
                · rw [if_pos h4] at h
                  split at h
                  · exact absurd h (by simp)
                  · rename_i vs pos1 nn1 heq
                    have hv := read_values_mono _ _ _ _ _ _ _ _ _ heq
                    simp only [Option.some.injEq, Prod.mk.injEq] at h
                    omega
                · rw [if_neg h4] at h
                  by_cases h5 : hdr.vr = "SV"
                  · rw [if_pos h5] at h
                    split at h
                    · exact absurd h (by simp)
                    · rename_i vs pos1 nn1 heq
                      have hv := read_values_mono _ _ _ _ _ _ _ _ _ heq
                      simp only [Option.some.injEq, Prod.mk.injEq] at h
                      omega
                  · rw [if_neg h5] at h
                    by_cases h6 : hdr.vr = "UL"
                    · rw [if_pos h6] at h
                      split at h
                      · exact absurd h (by simp)
                      · rename_i vs pos1 nn1 heq
                        have hv := read_values_mono _ _ _ _ _ _ _ _ _ heq
                        simp only [Option.some.injEq, Prod.mk.injEq] at h
                        omega
                    · rw [if_neg h6] at h
                      by_cases h7 : hdr.vr = "US"
                      · rw [if_pos h7] at h
                        split at h
                        · exact absurd h (by simp)
                        · rename_i vs pos1 nn1 heq
                          have hv := read_values_mono _ _ _ _ _ _ _ _ _ heq
                          simp only [Option.some.injEq, Prod.mk.injEq] at h
                          omega
                      · rw [if_neg h7] at h
                        by_cases h8 : hdr.vr = "UV"
                        · rw [if_pos h8] at h
                          split at h
                          · exact absurd h (by simp)
                          · rename_i vs pos1 nn1 heq
                            have hv :=
                              read_values_mono _ _ _ _ _ _ _ _ _ heq
                            simp only [Option.some.injEq,
                              Prod.mk.injEq] at h
                            omega
                        · rw [if_neg h8] at h
                          split at h
                          · exact absurd h (by simp)
                          · rename_i buf pos1 heq
                            obtain ⟨hp, _⟩ := readBytesAt_some heq
                            split at h
                            · simp only [Option.some.injEq,
                                Prod.mk.injEq] at h
                              omega
                            · exact absurd h (by simp)
    · intro s len pos ns acc out pos' n' h
      rw [read_sq_items] at h
      by_cases hlt : ns < len
      · rw [if_pos hlt] at h
        split at h
        · exact absurd h (by simp)
        · rename_i ih1 pos1 ns1 heq
          obtain ⟨hp1, _⟩ := read_item_header_some heq
          by_cases hdl : ih1.tag = TAG_SQ_DELIM
          · rw [if_pos hdl] at h
            simp only [Option.some.injEq, Prod.mk.injEq] at h
            omega
          · rw [if_neg hdl] at h
            by_cases hit : ih1.tag ≠ TAG_ITEM
            · rw [if_pos hit] at h
              exact absurd h (by simp)
            · rw [if_neg hit] at h
              split at h
              · exact absurd h (by simp)
              · rename_i ds pos2 nitem heq2
                have h2 := ihI _ _ _ _ _ _ _ _ heq2
                have h3 := ihS _ _ _ _ _ _ _ _ h
                omega
      · rw [if_neg hlt] at h
        simp only [Option.some.injEq, Prod.mk.injEq] at h
        omega
    · intro s il pos ni acc out pos' n' h
      rw [read_item_elems] at h
      by_cases hlt : ni < il
      · rw [if_pos hlt] at h
        split at h
        · exact absurd h (by simp)
        · rename_i t pos1 nt heq
          obtain ⟨hp1, _⟩ := read_tag_some heq
          by_cases hdl : t = TAG_ITEM_DELIM
          · rw [if_pos hdl] at h
            simp only [Option.some.injEq, Prod.mk.injEq] at h
            omega
          · rw [if_neg hdl] at h
            split at h
            · exact absurd h (by simp)
            · rename_i hdr2 pos2 n2 heq2
              have hp2 := read_element_header_some heq2
              have hple : pos ≤ pos2 := by
                rw [hp2]
                split
                · omega
                · split <;> omega
              split at h
              · exact absurd h (by simp)
              · rename_i e2 pos3 n3 heq3
                have h3 := ihE _ _ _ _ _ _ _ heq3
                by_cases hdup : (acc.any fun x => x.tagOf = e2.tagOf) = true
                · rw [if_pos hdup] at h
                  exact absurd h (by simp)
                · rw [if_neg hdup] at h
                  have h4 := ihI _ _ _ _ _ _ _ _ h
                  omega
      · rw [if_neg hlt] at h
        simp only [Option.some.injEq, Prod.mk.injEq] at h
        omega

end Dicom

namespace Dicom

set_option maxRecDepth 20000

/-- The pixel data offset recorded by `read_metadata_loop` is exactly the
stream position of the first byte of the header of the first pixel-data
element encountered (`first_pixel_header`), provided the loop starts at a
positive position and the pixel-data element, when in explicit mode, uses a
long-length VR (so that the 12-byte rewind of lines 1039–1045 matches the
header size); and that position is positive. -/
theorem C8_loop (ext : Ext) (implicit : Bool) (s : Bytes) :
    ∀ fuel pos n acc, 0 < pos →
    (∀ q hdr, first_pixel_header ext implicit s fuel pos n acc
        = some (q, hdr) →
      implicit = true ∨ isShortLengthVR hdr.vr = false) →
    ((read_metadata_loop ext implicit s fuel pos n acc).2.1
        = Option.map Prod.fst (first_pixel_header ext implicit s fuel pos n acc))
    ∧ (∀ q hdr, first_pixel_header ext implicit s fuel pos n acc
        = some (q, hdr) → 0 < q) := by
  intro fuel
  induction fuel with
  | zero =>
    intro pos n acc hpos hvr
    refine ⟨by simp [read_metadata_loop, first_pixel_header], ?_⟩
    intro q hdr h
    exact absurd h (by simp [first_pixel_header])
  | succ fuel ih =>
    intro pos n acc hpos hvr
    by_cases hEof : s.length ≤ pos
    · refine ⟨?_, ?_⟩
      · simp [read_metadata_loop, first_pixel_header, if_pos hEof]
      · intro q hdr h
        rw [first_pixel_header, if_pos hEof] at h
        exact absurd h (by simp)
    · cases hH : read_element_header ext s pos n implicit with
      | none =>
        refine ⟨?_, ?_⟩
        · simp [read_metadata_loop, first_pixel_header, if_neg hEof, hH]
        · intro q hdr h
          rw [first_pixel_header, if_neg hEof, hH] at h
          exact absurd h (by simp)
      | some trip =>
        obtain ⟨hdr, pos1, n1⟩ := trip
        by_cases htr : hdr.tag = TAG_TRAILING_PADDING
        · refine ⟨?_, ?_⟩
          · simp [read_metadata_loop, first_pixel_header, if_neg hEof, hH,
              if_pos htr]
          · intro q hdr2 h
            rw [first_pixel_header, if_neg hEof, hH] at h
            dsimp only at h
            rw [if_pos htr] at h
            exact absurd h (by simp)
        · by_cases hpx : isPixelDataTag hdr.tag = true
          · have hscan : first_pixel_header ext implicit s (fuel + 1) pos n acc
                = some (pos, hdr) := by
              rw [first_pixel_header, if_neg hEof, hH]
              dsimp only
              rw [if_neg htr, if_pos hpx]
            have hloop : (read_metadata_loop ext implicit s (fuel + 1) pos n
                acc).2.1 = some (pos1 - (if implicit then 8 else 12)) := by
              rw [read_metadata_loop, if_neg hEof, hH]
              dsimp only
              rw [if_neg htr, if_pos hpx]
            have hhs := read_element_header_some hH
            have hall := hvr pos hdr hscan
            have hrw : pos1 - (if implicit then 8 else 12) = pos := by
              by_cases himp : implicit = true
              · rw [himp] at hhs ⊢
                simp at hhs ⊢
                omega
              · have himp' : implicit = false := by
                  cases implicit
                  · rfl
                  · exact absurd rfl himp
                rcases hall with h' | hshort
                · exact absurd h' himp
                · rw [himp'] at hhs ⊢
                  rw [hshort] at hhs
                  simp at hhs ⊢
                  omega
            refine ⟨?_, ?_⟩
            · rw [hscan, hloop, hrw]
              rfl
            · intro q hdr2 h
              rw [hscan] at h
              simp only [Option.some.injEq, Prod.mk.injEq] at h
              omega
          · by_cases hgr : groupOf hdr.tag = 2
            · refine ⟨?_, ?_⟩
              · simp [read_metadata_loop, first_pixel_header, if_neg hEof,
                  hH, if_neg htr, hpx, if_pos hgr]
              · intro q hdr2 h
                rw [first_pixel_header, if_neg hEof, hH] at h
                dsimp only at h
                rw [if_neg htr, if_neg (by simp [hpx]), if_pos hgr] at h
                exact absurd h (by simp)
            · cases hE : read_element ext implicit (fuel + 1) s hdr pos1 n1 with
              | none =>
                refine ⟨?_, ?_⟩
                · simp [read_metadata_loop, first_pixel_header, if_neg hEof,
                    hH, if_neg htr, hpx, if_neg hgr, hE]
                · intro q hdr2 h
                  rw [first_pixel_header, if_neg hEof, hH] at h
                  dsimp only at h
                  rw [if_neg htr, if_neg (by simp [hpx]), if_neg hgr, hE]
                    at h
                  exact absurd h (by simp)
              | some trip2 =>
                obtain ⟨e, pos2, n2⟩ := trip2
                cases hD : dataset_insert acc e with
                | none =>
                  refine ⟨?_, ?_⟩
                  · simp [read_metadata_loop, first_pixel_header, if_neg hEof,
                      hH, if_neg htr, hpx, if_neg hgr, hE, hD]
                  · intro q hdr2 h
                    rw [first_pixel_header, if_neg hEof, hH] at h
                    dsimp only at h
                    rw [if_neg htr, if_neg (by simp [hpx]), if_neg hgr, hE]
                      at h
                    dsimp only at h
                    rw [hD] at h
                    exact absurd h (by simp)
                | some acc1 =>
                  have hscan : first_pixel_header ext implicit s (fuel + 1)
                      pos n acc
                      = first_pixel_header ext implicit s fuel pos2 n2 acc1 := by
                    rw [first_pixel_header, if_neg hEof, hH]
                    dsimp only
                    rw [if_neg htr, if_neg (by simp [hpx]), if_neg hgr, hE]
                    dsimp only
                    rw [hD]
                  have hloop : read_metadata_loop ext implicit s (fuel + 1)
                      pos n acc
                      = read_metadata_loop ext implicit s fuel pos2 n2 acc1 := by
                    rw [read_metadata_loop, if_neg hEof, hH]
                    dsimp only
                    rw [if_neg htr, if_neg (by simp [hpx]), if_neg hgr, hE]
                    dsimp only
                    rw [hD]
                  have hhs := read_element_header_some hH
                  have hmono :=
                    (parse_mono ext implicit (fuel + 1)).1 _ _ _ _ _ _ _ hE
                  have hpos2 : 0 < pos2 := by
                    have : pos < pos1 := by
                      rw [hhs]
                      split
                      · omega
                      · split <;> omega
                    omega
                  have hvr2 : ∀ q hdr,
                      first_pixel_header ext implicit s fuel pos2 n2 acc1
                        = some (q, hdr) →
                      implicit = true ∨ isShortLengthVR hdr.vr = false := by
                    intro q hdr2 h
                    exact hvr q hdr2 (by rw [hscan]; exact h)
                  obtain ⟨hA, hB⟩ := ih pos2 n2 acc1 hpos2 hvr2
                  refine ⟨?_, ?_⟩
                  · rw [hscan, hloop]
                    exact hA
                  · intro q hdr2 h
                    rw [hscan] at h
                    exact hB q hdr2 h

end Dicom

namespace Dicom

set_option maxRecDepth 20000

/-- C8: on a handle whose `pixel_data_offset` is still zero (as
`dcm_file_create` initializes it), after the Dataset Reader runs,
`pixel_data_offset` is set (nonzero) precisely when the reader encountered
one of the three pixel-data tags, and it then equals the stream offset of
the first byte of that pixel-data element's header — the position reached
by rewinding 8 bytes in implicit mode or 12 bytes in explicit mode, the
latter under the proviso that the pixel-data element's VR is of the
long-length class. -/
theorem C8_pixel_data_offset (ext : Ext) (fuel : Nat) (f : DcmFile)
    (h0 : f.pixel_data_offset = 0) (hpos : 0 < f.offset)
    (hvr : ∀ q hdr,
      first_pixel_header ext (metadata_implicit f.transfer_syntax_uid)
          f.bytes fuel f.offset 0 [] = some (q, hdr) →
      metadata_implicit f.transfer_syntax_uid = true
        ∨ isShortLengthVR hdr.vr = false) :
    ((read_metadata_body ext fuel f).2.pixel_data_offset ≠ 0
      ↔ (first_pixel_header ext (metadata_implicit f.transfer_syntax_uid)
          f.bytes fuel f.offset 0 []).isSome = true)
  ∧ (∀ q hdr,
      first_pixel_header ext (metadata_implicit f.transfer_syntax_uid)
          f.bytes fuel f.offset 0 [] = some (q, hdr) →
      (read_metadata_body ext fuel f).2.pixel_data_offset = q) := by
  obtain ⟨hA, hB⟩ := C8_loop ext (metadata_implicit f.transfer_syntax_uid)
    f.bytes fuel f.offset 0 [] hpos hvr
  have hfield : (read_metadata_body ext fuel f).2.pixel_data_offset
      = match (read_metadata_loop ext (metadata_implicit f.transfer_syntax_uid)
          f.bytes fuel f.offset 0 []).2.1 with
        | some q => q
        | none => f.pixel_data_offset := by
    unfold read_metadata_body
    rcases read_metadata_loop ext (metadata_implicit f.transfer_syntax_uid)
      f.bytes fuel f.offset 0 [] with ⟨r, found, posEnd⟩
    rfl
  rw [hfield, hA]
  cases hscan : first_pixel_header ext
      (metadata_implicit f.transfer_syntax_uid) f.bytes fuel f.offset 0 [] with
  | none =>
    refine ⟨by simp [h0], ?_⟩
    intro q hdr h
    exact absurd h (by simp)
  | some pr =>
    obtain ⟨q, hdr⟩ := pr
    have hq : 0 < q := hB q hdr hscan
    refine ⟨by simp [hq.ne'], ?_⟩
    intro q2 hdr2 h
    simp only [Option.some.injEq, Prod.mk.injEq] at h
    simp [h.1]

/-- C8 (witness): a concrete implicit-mode stream with a Pixel Data element
header at offset 1; the recorded `pixel_data_offset` is 1, the first byte
of that header. -/
theorem C8_pixel_data_offset_witness :
    ((read_metadata_body extDefault 5 fileC8).2.pixel_data_offset ≠ 0
      ↔ (first_pixel_header extDefault
          (metadata_implicit fileC8.transfer_syntax_uid) fileC8.bytes 5
          fileC8.offset 0 []).isSome = true)
  ∧ (read_metadata_body extDefault 5 fileC8).2.pixel_data_offset = 1 :=
  ⟨(C8_pixel_data_offset extDefault 5 fileC8 rfl (by decide)
      (fun _ _ _ => Or.inl (by decide))).1,
   (C8_pixel_data_offset extDefault 5 fileC8 rfl (by decide)
      (fun _ _ _ => Or.inl (by decide))).2 1 ⟨0x7FE00010, "UN", 0⟩ (by decide)⟩

end Dicom
